import Mathlib

/-!
Shallow embedding of the approval decision engine (class RuleEngine) of the
expense-approval service, together with the storage lookups it performs.
JavaScript truthiness on optional strings and numbers is modelled explicitly
(`truthyStr`, `truthyInt`), and array indexing that would dereference
`undefined` (a thrown TypeError at `step.approverUserId`) is modelled by the
engine functions returning `Option ApprovalDecision`, with `none` standing for
the thrown exception. Numbers are modelled as `Int` (step counters) and `ℚ`
(percentage arithmetic).
-/

namespace Engine

/-- A user record (table `users`). -/
structure User where
  id : String
  name : String
  email : String
  role : String
  companyId : String
  managerId : Option String
  deriving Repr, DecidableEq

/-- One stage of a workflow (table `workflow_steps`). -/
structure WorkflowStep where
  id : String
  workflowId : String
  stepNumber : Int
  approverRole : Option String
  approverUserId : Option String
  deriving Repr, DecidableEq

/-- The recognized keys of the loosely typed `ruleConfig` JSON bag; a null or
empty bag is the all-`none` / `false` record. -/
structure RuleConfig where
  requiredPercentage : Option ℚ
  specificApproverId : Option String
  usePercentage : Bool
  deriving Repr, DecidableEq

/-- A workflow definition (table `approval_workflows`). -/
structure ApprovalWorkflow where
  id : String
  name : String
  companyId : String
  ruleType : String
  ruleConfig : RuleConfig
  deriving Repr, DecidableEq

/-- An expense claim (table `expenses`); only the fields the engine reads. -/
structure Expense where
  id : String
  userId : String
  status : String
  workflowId : Option String
  currentStepNumber : Option Int
  deriving Repr, DecidableEq

/-- An approval-history audit record (table `approval_history`). -/
structure ApprovalHistory where
  id : String
  expenseId : String
  approverId : String
  status : String
  comment : Option String
  deriving Repr, DecidableEq

/-- The action parameter of `processApproval`. -/
inductive Action where
  | APPROVED
  | REJECTED
  deriving Repr, DecidableEq

/-- The `ApprovalDecision` interface returned by the engine. -/
structure ApprovalDecision where
  approved : Bool
  nextStepNumber : Option Int
  nextApprovers : List User
  completed : Bool
  reason : String
  deriving Repr, DecidableEq

/-- The read-only storage the engine consults: users, workflows, the step list
of each workflow (ordered by `stepNumber` ascending, as `getWorkflowSteps`
returns it), and the approval history of each expense. -/
structure Env where
  users : List User
  workflows : List ApprovalWorkflow
  stepsOf : String → List WorkflowStep
  historyOf : String → List ApprovalHistory

/-- storage.getUser. -/
def getUser (env : Env) (uid : String) : Option User :=
  env.users.find? (fun u => u.id == uid)

/-- storage.getUsersByCompany. -/
def getUsersByCompany (env : Env) (cid : String) : List User :=
  env.users.filter (fun u => u.companyId == cid)

/-- storage.getWorkflow. -/
def getWorkflow (env : Env) (wid : String) : Option ApprovalWorkflow :=
  env.workflows.find? (fun w => w.id == wid)

/-- JavaScript truthiness of an optional string: `null`, `undefined` and the
empty string are falsy; a truthy value is returned as `some`. -/
def truthyStr : Option String → Option String
  | none => none
  | some s => if s = "" then none else some s

/-- JavaScript truthiness of an optional number: `null`, `undefined` and `0`
are falsy. -/
def truthyInt : Option Int → Option Int
  | none => none
  | some n => if n = 0 then none else some n

/-- The idiom `expense.currentStepNumber || 1`. -/
def currentOr1 (c : Option Int) : Int :=
  match truthyInt c with
  | none => 1
  | some n => n

/-- JavaScript array indexing `xs[i]`: out-of-range (including negative)
indices give `undefined`, modelled as `none`. -/
def jsIndex {α : Type} (xs : List α) (i : Int) : Option α :=
  if i < 0 then none else xs[i.toNat]?

/-- RuleEngine.getApproversForStep: resolve the set of users entitled to act
at a step from its role or user designation. -/
def getApproversForStep (env : Env) (step : WorkflowStep) (expenseUserId : String) : List User :=
  match truthyStr step.approverUserId with
  | some uid =>
    match getUser env uid with
    | some u => [u]
    | none => []
  | none =>
    match truthyStr step.approverRole with
    | some role =>
      match getUser env expenseUserId with
      | none => []
      | some expenseUser =>
        if role = "MANAGER" then
          match truthyStr expenseUser.managerId with
          | some mid =>
            match getUser env mid with
            | some m => [m]
            | none => []
          | none => []
        else
          (getUsersByCompany env expenseUser.companyId).filter (fun u => u.role == role)
    | none => []

/-- RuleEngine.isApproverAuthorized: auto-authorize when no workflow or no
current step is set (or, in the code, when no step record carries the current
step number); otherwise membership in the resolved approver set. -/
def isApproverAuthorized (env : Env) (expense : Expense) (approverId : String) : Bool :=
  match truthyStr expense.workflowId, truthyInt expense.currentStepNumber with
  | some wid, some csn =>
    match (env.stepsOf wid).find? (fun s => s.stepNumber == csn) with
    | none => true
    | some currentStep =>
      (getApproversForStep env currentStep expense.userId).any (fun a => a.id == approverId)
  | _, _ => true

/-- The reason string of the two unauthorized decisions. -/
def unauthorizedReason : String :=
  "Unauthorized: You are not an authorized approver for this step"

/-- RuleEngine.processSequential. -/
def processSequential (env : Env) (expense : Expense) (steps : List WorkflowStep) :
    Option ApprovalDecision :=
  let nextStepNumber := currentOr1 expense.currentStepNumber + 1
  if nextStepNumber > (steps.length : Int) then
    some ⟨true, none, [], true, "All steps completed"⟩
  else
    match jsIndex steps (nextStepNumber - 1) with
    | none => none
    | some nextStep =>
      some ⟨false, some nextStepNumber, getApproversForStep env nextStep expense.userId, false,
        "Moving to step " ++ toString nextStepNumber⟩

/-- The count of APPROVED history entries of the expense plus one (the current
action counts before being persisted). -/
def approvedCountOf (env : Env) (expenseId : String) : Nat :=
  ((env.historyOf expenseId).filter (fun h => h.status == "APPROVED")).length + 1

/-- The sum over every workflow step of the size of its resolved approver set
(overlapping role sets are counted once per step, not deduplicated). -/
def totalApproversOf (env : Env) (steps : List WorkflowStep) (expenseUserId : String) : Nat :=
  (steps.map (fun step => (getApproversForStep env step expenseUserId).length)).sum

/-- The idiom `config?.requiredPercentage || 50`: a missing value or the falsy
number 0 both give the default 50. -/
def requiredPercentageOf (workflow : ApprovalWorkflow) : ℚ :=
  match workflow.ruleConfig.requiredPercentage with
  | none => 50
  | some r => if r = 0 then 50 else r

/-- RuleEngine.processPercentage. -/
def processPercentage (env : Env) (expense : Expense) (workflow : ApprovalWorkflow)
    (steps : List WorkflowStep) (_approverId : String) : Option ApprovalDecision :=
  let requiredPercentage := requiredPercentageOf workflow
  let approvedCount := approvedCountOf env expense.id
  let totalApproversCount := totalApproversOf env steps expense.userId
  if totalApproversCount = 0 then
    some ⟨false, none, [], true, "No approvers available - workflow cannot proceed"⟩
  else
    let currentPercentage : ℚ := ((approvedCount : ℚ) / (totalApproversCount : ℚ)) * 100
    if currentPercentage ≥ requiredPercentage then
      some ⟨true, none, [], true, toString currentPercentage ++ "% approval threshold met"⟩
    else
      let nextStepNumber := currentOr1 expense.currentStepNumber + 1
      if nextStepNumber > (steps.length : Int) then
        some ⟨decide (currentPercentage ≥ requiredPercentage), none, [], true,
          "Final percentage: " ++ toString currentPercentage ++ "%"⟩
      else
        match jsIndex steps (nextStepNumber - 1) with
        | none => none
        | some nextStep =>
          some ⟨false, some nextStepNumber, getApproversForStep env nextStep expense.userId, false,
            "Current approval: " ++ toString currentPercentage ++ "%, need " ++
              toString requiredPercentage ++ "%"⟩

/-- RuleEngine.processSpecificApprover. -/
def processSpecificApprover (env : Env) (expense : Expense) (workflow : ApprovalWorkflow)
    (steps : List WorkflowStep) (approverId : String) : Option ApprovalDecision :=
  let specificApproverId := workflow.ruleConfig.specificApproverId
  if some approverId = specificApproverId then
    some ⟨true, none, [], true, "Approved by specific approver"⟩
  else
    let nextStepNumber := currentOr1 expense.currentStepNumber + 1
    if nextStepNumber > (steps.length : Int) then
      some ⟨false, none, [], true, "Specific approver did not approve"⟩
    else
      match jsIndex steps (nextStepNumber - 1) with
      | none => none
      | some nextStep =>
        some ⟨false, some nextStepNumber, getApproversForStep env nextStep expense.userId, false,
          "Waiting for specific approver (User ID: " ++ specificApproverId.getD "undefined" ++ ")"⟩

/-- Whether history holds an APPROVED entry by the given approver id; the scan
RuleEngine.processHybrid performs behind its truthiness guard. -/
def historyHasApprovedBy (env : Env) (expenseId : String) (sid : String) : Bool :=
  (env.historyOf expenseId).any (fun h => h.approverId == sid && h.status == "APPROVED")

/-- RuleEngine.processHybrid. -/
def processHybrid (env : Env) (expense : Expense) (workflow : ApprovalWorkflow)
    (steps : List WorkflowStep) (approverId : String) : Option ApprovalDecision :=
  let usePercentage := workflow.ruleConfig.usePercentage
  let specificApproverId := workflow.ruleConfig.specificApproverId
  match truthyStr specificApproverId with
  | some sid =>
    if approverId = sid then
      some ⟨true, none, [], true, "Approved by specific approver (hybrid rule)"⟩
    else
      if !(historyHasApprovedBy env expense.id sid) then
        let nextStepNumber := currentOr1 expense.currentStepNumber + 1
        if nextStepNumber > (steps.length : Int) then
          some ⟨false, none, [], true,
            "Workflow complete but specific approver has not approved - rejected"⟩
        else
          match jsIndex steps (nextStepNumber - 1) with
          | none => none
          | some nextStep =>
            some ⟨false, some nextStepNumber, getApproversForStep env nextStep expense.userId,
              false, "Waiting for specific approver (User ID: " ++ sid ++ ") in hybrid workflow"⟩
      else
        if usePercentage then processPercentage env expense workflow steps approverId
        else processSequential env expense steps
  | none =>
    if usePercentage then processPercentage env expense workflow steps approverId
    else processSequential env expense steps

/-- RuleEngine.processApproval: the top-level evaluation entry point. -/
def processApproval (env : Env) (expense : Expense) (approverId : String) (decision : Action) :
    Option ApprovalDecision :=
  match decision with
  | Action.REJECTED =>
    if isApproverAuthorized env expense approverId = false then
      some ⟨false, none, [], false, unauthorizedReason⟩
    else
      some ⟨false, none, [], true, "Expense rejected by approver"⟩
  | Action.APPROVED =>
    match truthyStr expense.workflowId with
    | none => some ⟨true, none, [], true, "No workflow assigned - auto-approved"⟩
    | some wid =>
      match getWorkflow env wid with
      | none => some ⟨true, none, [], true, "Workflow not found - auto-approved"⟩
      | some workflow =>
        let steps := env.stepsOf wid
        if steps.length = 0 then
          some ⟨true, none, [], true, "No workflow steps - auto-approved"⟩
        else if isApproverAuthorized env expense approverId = false then
          some ⟨false, none, [], false, unauthorizedReason⟩
        else if workflow.ruleType = "SEQUENTIAL" then
          processSequential env expense steps
        else if workflow.ruleType = "PERCENTAGE" then
          processPercentage env expense workflow steps approverId
        else if workflow.ruleType = "SPECIFIC_APPROVER" then
          processSpecificApprover env expense workflow steps approverId
        else if workflow.ruleType = "HYBRID" then
          processHybrid env expense workflow steps approverId
        else
          some ⟨true, none, [], true, "Unknown rule type - auto-approved"⟩

/-- Modelled from the spec (§3 Decision), as amended: a well-formed decision
has `nextStepNumber` present only when not completed, empty `nextApprovers`
when completed, and, when not completed, either a step to advance to or the
unauthorized reason. -/
def decisionInvariant (d : ApprovalDecision) : Prop :=
  (d.nextStepNumber ≠ none → d.completed = false) ∧
  (d.completed = true → d.nextStepNumber = none ∧ d.nextApprovers = []) ∧
  (d.completed = false → d.nextStepNumber ≠ none ∨ d.reason = unauthorizedReason)

instance (d : ApprovalDecision) : Decidable (decisionInvariant d) := by
  unfold decisionInvariant; infer_instance

/-- Modelled from the amended spec sentence for the is-authorized check: an
approver is authorized iff the claim has no workflow or no current step, or no
step record carries `currentStepNumber` (also auto-authorize), or the approver
appears in the resolver output for the first step carrying it. -/
def specAuthorizedFixed (env : Env) (e : Expense) (aid : String) : Bool :=
  match e.workflowId, e.currentStepNumber with
  | some wid, some csn =>
    match (env.stepsOf wid).find? (fun s => s.stepNumber == csn) with
    | none => true
    | some st => (getApproversForStep env st e.userId).any (fun a => a.id == aid)
  | _, _ => true

/-! Concrete fixtures used by witnesses and counterexamples. -/

/-- An empty storage. -/
def envTriv : Env := ⟨[], [], fun _ => [], fun _ => []⟩

/-- A claim with no workflow assigned. -/
def eNoWf : Expense := ⟨"e1", "emp", "PENDING", none, none⟩

/-- A second claim with no workflow assigned. -/
def eNoWf2 : Expense := ⟨"e1b", "emp", "PENDING", none, none⟩

/-- A manager user serving as a step approver. -/
def uBob : User := ⟨"bob", "Bob", "bob@x", "MANAGER", "c", none⟩

/-- Storage holding a single one-step workflow step list whose only approver is
uBob. -/
def envC2 : Env := ⟨[uBob], [], fun _ => [⟨"s1", "w", 1, none, some "bob"⟩], fun _ => []⟩

/-- A claim pending at step 1 of workflow w. -/
def eC2 : Expense := ⟨"e2", "emp", "PENDING", some "w", some 1⟩

/-- The unauthorized decision literal of the engine. -/
def unauthorizedDecision : ApprovalDecision := ⟨false, none, [], false, unauthorizedReason⟩

/-- A PERCENTAGE workflow with a default-config rule bag. -/
def wPct0 : ApprovalWorkflow := ⟨"w", "wf", "c", "PERCENTAGE", ⟨none, none, false⟩⟩

/-- Storage where the sole step names a nonexistent approver user, so every
step resolves to zero approvers. -/
def envPct0 : Env := ⟨[], [wPct0], fun _ => [⟨"s1", "w", 1, none, some "ghost"⟩], fun _ => []⟩

/-- A claim on workflow w whose step counter has not been engaged. -/
def ePct0 : Expense := ⟨"e3", "emp", "PENDING", some "w", none⟩

/-- A claim pointing at step 5 of a workflow whose step list only carries step
number 1. -/
def eC4 : Expense := ⟨"e4", "emp", "PENDING", some "w", some 5⟩

/-- Storage whose step list for workflow w holds only step number 1. -/
def envC4 : Env := ⟨[uBob], [], fun _ => [⟨"s1", "w", 1, none, some "bob"⟩], fun _ => []⟩

/-- Modelled from the spec words of §4.4: the required percentage, defaulting
to 50 when unset; compared against the code default that also treats the falsy
value 0 as unset. -/
def requiredOrDefault (w : ApprovalWorkflow) : ℚ :=
  (w.ruleConfig.requiredPercentage).getD 50

/-- A first step approver. -/
def u1 : User := ⟨"u1", "UserOne", "u1@x", "MANAGER", "c", none⟩

/-- A second step approver. -/
def u2 : User := ⟨"u2", "UserTwo", "u2@x", "ADMIN", "c", none⟩

/-- A third step approver. -/
def u3 : User := ⟨"u3", "UserThree", "u3@x", "ADMIN", "c", none⟩

/-- A SEQUENTIAL two-step workflow. -/
def wSeq : ApprovalWorkflow := ⟨"w", "wf", "c", "SEQUENTIAL", ⟨none, none, false⟩⟩

/-- Two steps resolved by fixed approver users u1 and u2. -/
def stepsSeq : List WorkflowStep := [⟨"s1", "w", 1, none, some "u1"⟩, ⟨"s2", "w", 2, none, some "u2"⟩]

/-- Storage for the sequential scenario. -/
def envSeq : Env := ⟨[u1, u2], [wSeq], fun _ => stepsSeq, fun _ => []⟩

/-- A claim pending at step 1 of the sequential workflow. -/
def eSeq : Expense := ⟨"e5", "emp", "PENDING", some "w", some 1⟩

/-- A PERCENTAGE workflow requiring 50 percent. -/
def wPct : ApprovalWorkflow := ⟨"w", "wf", "c", "PERCENTAGE", ⟨some 50, none, false⟩⟩

/-- Storage for the percentage scenario: two steps, one approver each. -/
def envPct : Env := ⟨[u1, u2], [wPct], fun _ => stepsSeq, fun _ => []⟩

/-- A claim pending at step 1 of the percentage workflow. -/
def ePct : Expense := ⟨"e6", "emp", "PENDING", some "w", some 1⟩

/-- Three steps resolved by fixed approver users u1, u2 and u3. -/
def steps3 : List WorkflowStep :=
  [⟨"s1", "w", 1, none, some "u1"⟩, ⟨"s2", "w", 2, none, some "u2"⟩, ⟨"s3", "w", 3, none, some "u3"⟩]

/-- Storage for the exhausted-percentage scenario: three steps, one approver
each. -/
def envPct3 : Env := ⟨[u1, u2, u3], [wPct], fun _ => steps3, fun _ => []⟩

/-- A claim pending at the last step of the three-step percentage workflow. -/
def ePct3 : Expense := ⟨"e7", "emp", "PENDING", some "w", some 3⟩

/-- The designated specific approver. -/
def uBoss : User := ⟨"boss", "Boss", "boss@x", "ADMIN", "c", none⟩

/-- A SPECIFIC_APPROVER workflow designating uBoss. -/
def wSpec : ApprovalWorkflow := ⟨"w", "wf", "c", "SPECIFIC_APPROVER", ⟨none, some "boss", false⟩⟩

/-- Storage for the specific-approver scenario: one step resolved by uBoss. -/
def envSpec : Env := ⟨[uBoss], [wSpec], fun _ => [⟨"s1", "w", 1, none, some "boss"⟩], fun _ => []⟩

/-- A claim pending at step 1 of the specific-approver workflow. -/
def eSpec : Expense := ⟨"e8", "emp", "PENDING", some "w", some 1⟩

/-- A HYBRID workflow designating uBoss and not using percentage fallback. -/
def wHyb : ApprovalWorkflow := ⟨"w", "wf", "c", "HYBRID", ⟨none, some "boss", false⟩⟩

/-- Two steps resolved by u1 then uBoss. -/
def stepsHyb : List WorkflowStep := [⟨"s1", "w", 1, none, some "u1"⟩, ⟨"s2", "w", 2, none, some "boss"⟩]

/-- Storage for the hybrid scenario. -/
def envHyb : Env := ⟨[u1, uBoss], [wHyb], fun _ => stepsHyb, fun _ => []⟩

/-- A claim pending at step 1 of the hybrid workflow. -/
def eHyb : Expense := ⟨"e9", "emp", "PENDING", some "w", some 1⟩

/-- A SPECIFIC_APPROVER workflow whose rule bag names no specific approver. -/
def wSpec0 : ApprovalWorkflow := ⟨"w", "wf", "c", "SPECIFIC_APPROVER", ⟨none, none, false⟩⟩

/-- Storage for the misconfigured specific-approver scenario: one step
resolved by u1. -/
def envSpec0 : Env := ⟨[u1], [wSpec0], fun _ => [⟨"s1", "w", 1, none, some "u1"⟩], fun _ => []⟩

/-- A claim pending at step 1 of the misconfigured specific-approver
workflow. -/
def eSpec0 : Expense := ⟨"e10", "emp", "PENDING", some "w", some 1⟩

/-! Helper lemmas. -/

theorem jsIndex_get {α : Type} (xs : List α) (i : Int) (h0 : 0 ≤ i)
    (h1 : i.toNat < xs.length) : jsIndex xs i = some (xs.get ⟨i.toNat, h1⟩) := by
  unfold jsIndex
  rw [if_neg (by omega)]
  exact List.getElem?_eq_getElem h1

theorem inv_of_terminal (a : Bool) (r : String) : decisionInvariant ⟨a, none, [], true, r⟩ :=
  ⟨fun hn => absurd rfl hn, fun _ => ⟨rfl, rfl⟩, fun hc => Bool.noConfusion hc⟩

theorem inv_of_advance (n : Int) (us : List User) (r : String) :
    decisionInvariant ⟨false, some n, us, false, r⟩ :=
  ⟨fun _ => rfl, fun hc => Bool.noConfusion hc, fun _ => Or.inl (by simp)⟩

theorem inv_of_unauthorized : decisionInvariant unauthorizedDecision := by
  exact ⟨fun hn => absurd rfl hn, fun hc => Bool.noConfusion hc, fun _ => Or.inr rfl⟩

theorem processSequential_inv (env : Env) (e : Expense) (steps : List WorkflowStep)
    (d : ApprovalDecision) (h : processSequential env e steps = some d) : decisionInvariant d := by
  unfold processSequential at h
  simp only [] at h
  split at h
  · cases h; exact inv_of_terminal _ _
  · split at h
    · exact Option.noConfusion h
    · cases h; exact inv_of_advance _ _ _

theorem processPercentage_inv (env : Env) (e : Expense) (w : ApprovalWorkflow)
    (steps : List WorkflowStep) (aid : String) (d : ApprovalDecision)
    (h : processPercentage env e w steps aid = some d) : decisionInvariant d := by
  unfold processPercentage at h
  simp only [] at h
  split at h
  · cases h; exact inv_of_terminal _ _
  · split at h
    · cases h; exact inv_of_terminal _ _
    · split at h
      · cases h; exact inv_of_terminal _ _
      · split at h
        · exact Option.noConfusion h
        · cases h; exact inv_of_advance _ _ _

theorem processSpecificApprover_inv (env : Env) (e : Expense) (w : ApprovalWorkflow)
    (steps : List WorkflowStep) (aid : String) (d : ApprovalDecision)
    (h : processSpecificApprover env e w steps aid = some d) : decisionInvariant d := by
  unfold processSpecificApprover at h
  simp only [] at h
  split at h
  · cases h; exact inv_of_terminal _ _
  · split at h
    · cases h; exact inv_of_terminal _ _
    · split at h
      · exact Option.noConfusion h
      · cases h; exact inv_of_advance _ _ _

theorem processHybrid_inv (env : Env) (e : Expense) (w : ApprovalWorkflow)
    (steps : List WorkflowStep) (aid : String) (d : ApprovalDecision)
    (h : processHybrid env e w steps aid = some d) : decisionInvariant d := by
  unfold processHybrid at h
  simp only [] at h
  split at h
  · split at h
    · cases h; exact inv_of_terminal _ _
    · split at h
      · split at h
        · cases h; exact inv_of_terminal _ _
        · split at h
          · exact Option.noConfusion h
          · cases h; exact inv_of_advance _ _ _
      · split at h
        · exact processPercentage_inv _ _ _ _ _ _ h
        · exact processSequential_inv _ _ _ _ h
  · split at h
    · exact processPercentage_inv _ _ _ _ _ _ h
    · exact processSequential_inv _ _ _ _ h

/-! Claim theorems. -/

/-- Claim C1: for every claim and every approver authorized for its current
step, a REJECTED action yields a terminal rejection, a decision with completed
true and approved false, regardless of rule type and step position. -/
theorem rejected_by_authorized_is_terminal_reject (env : Env) (e : Expense) (aid : String)
    (hauth : isApproverAuthorized env e aid = true) :
    processApproval env e aid Action.REJECTED =
      some ⟨false, none, [], true, "Expense rejected by approver"⟩ := by
  simp [processApproval, hauth]

/-- Claim C1 witness: rejecting the workflow-less claim eNoWf, on which every
approver is auto-authorized. -/
theorem rejected_by_authorized_is_terminal_reject_witness :
    isApproverAuthorized envTriv eNoWf "a" = true ∧
    processApproval envTriv eNoWf "a" Action.REJECTED =
      some ⟨false, none, [], true, "Expense rejected by approver"⟩ :=
  ⟨by decide, rejected_by_authorized_is_terminal_reject envTriv eNoWf "a" (by decide)⟩

/-- Claim C2 counterexample: an unauthorized REJECTED action on claim eC2
returns a decision with completed false and nextStepNumber null, violating the
claimed iff between a present nextStepNumber and completed false. -/
theorem decision_wf_counterexample :
    processApproval envC2 eC2 "eve" Action.REJECTED = some unauthorizedDecision ∧
    ¬ (unauthorizedDecision.nextStepNumber ≠ none ↔ unauthorizedDecision.completed = false) :=
  ⟨by decide, by decide⟩

/-- Claim C2 (amended): every decision returned by processApproval satisfies
the invariant that a present nextStepNumber entails completed false, a
completed decision has no nextStepNumber and no nextApprovers, and a
non-completed decision carries either a nextStepNumber or the unauthorized
reason (the two unauthorized decisions are the only exceptions to the
claimed iff). -/
theorem processApproval_decision_invariant (env : Env) (e : Expense) (aid : String)
    (act : Action) (d : ApprovalDecision)
    (h : processApproval env e aid act = some d) : decisionInvariant d := by
  cases act with
  | REJECTED =>
    simp only [processApproval] at h
    by_cases hb : isApproverAuthorized env e aid = false
    · rw [if_pos hb] at h; cases h; exact inv_of_unauthorized
    · rw [if_neg hb] at h; cases h; exact inv_of_terminal _ _
  | APPROVED =>
    simp only [processApproval] at h
    cases hww : truthyStr e.workflowId with
    | none => simp only [hww] at h; cases h; exact inv_of_terminal _ _
    | some wid =>
      simp only [hww] at h
      cases hwf : getWorkflow env wid with
      | none => simp only [hwf] at h; cases h; exact inv_of_terminal _ _
      | some w =>
        simp only [hwf] at h
        by_cases hlen : (env.stepsOf wid).length = 0
        · rw [if_pos hlen] at h; cases h; exact inv_of_terminal _ _
        · rw [if_neg hlen] at h
          by_cases hb : isApproverAuthorized env e aid = false
          · rw [if_pos hb] at h; cases h; exact inv_of_unauthorized
          · rw [if_neg hb] at h
            by_cases h1 : w.ruleType = "SEQUENTIAL"
            · rw [if_pos h1] at h; exact processSequential_inv _ _ _ _ h
            · rw [if_neg h1] at h
              by_cases h2 : w.ruleType = "PERCENTAGE"
              · rw [if_pos h2] at h; exact processPercentage_inv _ _ _ _ _ _ h
              · rw [if_neg h2] at h
                by_cases h3 : w.ruleType = "SPECIFIC_APPROVER"
                · rw [if_pos h3] at h; exact processSpecificApprover_inv _ _ _ _ _ _ h
                · rw [if_neg h3] at h
                  by_cases h4 : w.ruleType = "HYBRID"
                  · rw [if_pos h4] at h; exact processHybrid_inv _ _ _ _ _ _ h
                  · rw [if_neg h4] at h; cases h; exact inv_of_terminal _ _

/-- Claim C2 witness: the invariant at the auto-approve decision of a
workflow-less claim. -/
theorem processApproval_decision_invariant_witness :
    processApproval envTriv eNoWf2 "a" Action.APPROVED =
      some ⟨true, none, [], true, "No workflow assigned - auto-approved"⟩ ∧
    decisionInvariant ⟨true, none, [], true, "No workflow assigned - auto-approved"⟩ :=
  ⟨by decide,
    processApproval_decision_invariant envTriv eNoWf2 "a" Action.APPROVED _ (by decide)⟩

/-- Claim C3: for an APPROVED action by an authorized approver, a missing
workflow reference, a missing workflow record, an empty step list and an
unknown rule type each fail open to terminal approval, while PERCENTAGE with
zero resolvable approvers over all steps fails closed to terminal
rejection. -/
theorem approved_failopen_except_percentage_zero (env : Env) (e : Expense) (aid : String)
    (hauth : isApproverAuthorized env e aid = true) :
    (truthyStr e.workflowId = none →
      processApproval env e aid Action.APPROVED =
        some ⟨true, none, [], true, "No workflow assigned - auto-approved"⟩) ∧
    (∀ wid, truthyStr e.workflowId = some wid → getWorkflow env wid = none →
      processApproval env e aid Action.APPROVED =
        some ⟨true, none, [], true, "Workflow not found - auto-approved"⟩) ∧
    (∀ wid w, truthyStr e.workflowId = some wid → getWorkflow env wid = some w →
      env.stepsOf wid = [] →
      processApproval env e aid Action.APPROVED =
        some ⟨true, none, [], true, "No workflow steps - auto-approved"⟩) ∧
    (∀ wid w, truthyStr e.workflowId = some wid → getWorkflow env wid = some w →
      env.stepsOf wid ≠ [] →
      w.ruleType ≠ "SEQUENTIAL" → w.ruleType ≠ "PERCENTAGE" →
      w.ruleType ≠ "SPECIFIC_APPROVER" → w.ruleType ≠ "HYBRID" →
      processApproval env e aid Action.APPROVED =
        some ⟨true, none, [], true, "Unknown rule type - auto-approved"⟩) ∧
    (∀ wid w, truthyStr e.workflowId = some wid → getWorkflow env wid = some w →
      env.stepsOf wid ≠ [] → w.ruleType = "PERCENTAGE" →
      totalApproversOf env (env.stepsOf wid) e.userId = 0 →
      processApproval env e aid Action.APPROVED =
        some ⟨false, none, [], true, "No approvers available - workflow cannot proceed"⟩) := by
  refine ⟨fun h0 => ?_, fun wid h0 h1 => ?_, fun wid w h0 h1 h2 => ?_,
    fun wid w h0 h1 h2 h3 h4 h5 h6 => ?_, fun wid w h0 h1 h2 h3 h4 => ?_⟩
  · simp [processApproval, h0]
  · simp [processApproval, h0, h1]
  · simp [processApproval, h0, h1, h2]
  · simp [processApproval, h0, h1, List.length_eq_zero, h2, h3, h4, h5, h6, hauth]
  · simp [processApproval, h0, h1, List.length_eq_zero, h2, h3, hauth, processPercentage, h4]

/-- Claim C3 witness: the fail-open no-workflow case on eNoWf, and the
fail-closed percentage case on ePct0, whose sole step resolves to zero
approvers. -/
theorem approved_failopen_except_percentage_zero_witness :
    processApproval envTriv eNoWf "b" Action.APPROVED =
      some ⟨true, none, [], true, "No workflow assigned - auto-approved"⟩ ∧
    processApproval envPct0 ePct0 "b" Action.APPROVED =
      some ⟨false, none, [], true, "No approvers available - workflow cannot proceed"⟩ :=
  ⟨(approved_failopen_except_percentage_zero envTriv eNoWf "b" (by decide)).1 rfl,
    (approved_failopen_except_percentage_zero envPct0 ePct0 "b" (by decide)).2.2.2.2
      "w" wPct0 (by decide) (by decide) (by decide) rfl (by decide)⟩

/-- Claim C4 counterexample: claim eC4 has a workflow and a current step
number (5), no step record carries step number 5, so under the claimed iff no
approver would be authorized, yet the code authorizes an arbitrary user. -/
theorem is_authorized_iff_counterexample :
    isApproverAuthorized envC4 eC4 "alice" = true ∧
    eC4.workflowId = some "w" ∧ eC4.currentStepNumber = some 5 ∧
    ∀ s ∈ envC4.stepsOf "w", s.stepNumber ≠ 5 :=
  ⟨by decide, rfl, rfl, by decide⟩

/-- Claim C4 (amended): for claims whose workflow id is not the empty string
and whose current step number is not the falsy 0, the code authorization
coincides with the amended spec predicate, which also auto-authorizes when no
step record carries the current step number. -/
theorem is_authorized_eq_spec_fixed (env : Env) (e : Expense) (aid : String)
    (hw : e.workflowId ≠ some "") (hc : e.currentStepNumber ≠ some 0) :
    isApproverAuthorized env e aid = specAuthorizedFixed env e aid := by
  obtain ⟨eid, euid, est, ewf, ecsn⟩ := e
  cases ewf with
  | none => rfl
  | some wid =>
    have hwid : ¬ wid = "" := fun hh => hw (by rw [hh])
    cases ecsn with
    | none =>
      simp only [isApproverAuthorized, specAuthorizedFixed, truthyStr, truthyInt]
      rw [if_neg hwid]
    | some csn =>
      have hcsn : ¬ csn = 0 := fun hh => hc (by rw [hh])
      simp only [isApproverAuthorized, specAuthorizedFixed, truthyStr, truthyInt]
      rw [if_neg hwid, if_neg hcsn]

/-- Claim C4 witness: the code authorization and the amended predicate agree
on the missing-step claim eC4. -/
theorem is_authorized_eq_spec_fixed_witness :
    isApproverAuthorized envC4 eC4 "alice" = specAuthorizedFixed envC4 eC4 "alice" :=
  is_authorized_eq_spec_fixed envC4 eC4 "alice" (by decide) (by decide)

/-- Claim C5: SEQUENTIAL with an authorized APPROVED action at current step k
(defaulting to 1 when absent, positive per the data model): when k+1 is at
most the step count the decision is a non-terminal advance to k+1 with the
approvers of that step; when k+1 exceeds the step count the decision is a
terminal approval. -/
theorem sequential_advances_or_completes (env : Env) (e : Expense) (aid wid : String)
    (w : ApprovalWorkflow)
    (hwid : truthyStr e.workflowId = some wid) (hwf : getWorkflow env wid = some w)
    (hrt : w.ruleType = "SEQUENTIAL") (hne : env.stepsOf wid ≠ [])
    (hauth : isApproverAuthorized env e aid = true)
    (hk : 1 ≤ currentOr1 e.currentStepNumber) :
    (currentOr1 e.currentStepNumber + 1 ≤ ((env.stepsOf wid).length : Int) →
      ∃ st, jsIndex (env.stepsOf wid) (currentOr1 e.currentStepNumber) = some st ∧
        processApproval env e aid Action.APPROVED =
          some ⟨false, some (currentOr1 e.currentStepNumber + 1),
            getApproversForStep env st e.userId, false,
            "Moving to step " ++ toString (currentOr1 e.currentStepNumber + 1)⟩) ∧
    (((env.stepsOf wid).length : Int) < currentOr1 e.currentStepNumber + 1 →
      processApproval env e aid Action.APPROVED =
        some ⟨true, none, [], true, "All steps completed"⟩) := by
  have hred : processApproval env e aid Action.APPROVED =
      processSequential env e (env.stepsOf wid) := by
    simp only [processApproval, hwid, hwf]
    rw [if_neg (fun hl => hne (List.length_eq_zero.mp hl)),
      if_neg (by simp [hauth]), if_pos hrt]
  constructor
  · intro hle
    have h0 : (0 : Int) ≤ currentOr1 e.currentStepNumber := by omega
    have hlt : (currentOr1 e.currentStepNumber).toNat < (env.stepsOf wid).length := by omega
    refine ⟨(env.stepsOf wid).get ⟨(currentOr1 e.currentStepNumber).toNat, hlt⟩,
      jsIndex_get _ _ h0 hlt, ?_⟩
    rw [hred]
    simp only [processSequential]
    rw [if_neg (by omega), add_sub_cancel_right, jsIndex_get _ _ h0 hlt]
  · intro hgt
    rw [hred]
    simp only [processSequential]
    rw [if_pos (by omega)]

/-- Claim C5 witness: approving step 1 of the 2-step sequential workflow
advances the claim to step 2 whose approver set is resolved. -/
theorem sequential_advances_or_completes_witness :
    ∃ st, jsIndex (envSeq.stepsOf "w") (currentOr1 eSeq.currentStepNumber) = some st ∧
      processApproval envSeq eSeq "u1" Action.APPROVED =
        some ⟨false, some (currentOr1 eSeq.currentStepNumber + 1),
          getApproversForStep envSeq st eSeq.userId, false,
          "Moving to step " ++ toString (currentOr1 eSeq.currentStepNumber + 1)⟩ :=
  (sequential_advances_or_completes envSeq eSeq "u1" "w" wSeq (by decide) (by decide) rfl
    (by decide) (by decide) (by decide)).1 (by decide)

/-- The code default for the required percentage coincides with the spec-side
getD default on the declared domain of requiredPercentage (integer 1 to
100). -/
theorem requiredPercentageOf_eq_default (w : ApprovalWorkflow)
    (hreq : ∀ r, w.ruleConfig.requiredPercentage = some r → 1 ≤ r ∧ r ≤ 100) :
    requiredPercentageOf w = requiredOrDefault w := by
  unfold requiredPercentageOf requiredOrDefault
  cases hr : w.ruleConfig.requiredPercentage with
  | none => rfl
  | some r =>
    have h1 := (hreq r hr).1
    have h0 : ¬ r = 0 := by intro h0; rw [h0] at h1; norm_num at h1
    simp [h0]

/-- Claim C6: PERCENTAGE with an authorized APPROVED action: with
approvedCount the APPROVED history count plus one, totalApprovers the
non-deduplicated sum of resolved approver-set sizes over all steps, and
percentage their ratio times 100, a positive totalApprovers together with
percentage at least requiredPercentage (defaulting to 50 when unset, and
within the declared 1 to 100 domain when set) yields an immediate terminal
approval reporting the achieved percentage. -/
theorem percentage_threshold_terminal_approve (env : Env) (e : Expense) (aid wid : String)
    (w : ApprovalWorkflow)
    (hwid : truthyStr e.workflowId = some wid) (hwf : getWorkflow env wid = some w)
    (hrt : w.ruleType = "PERCENTAGE") (hne : env.stepsOf wid ≠ [])
    (hauth : isApproverAuthorized env e aid = true)
    (hreq : ∀ r, w.ruleConfig.requiredPercentage = some r → 1 ≤ r ∧ r ≤ 100)
    (htot : totalApproversOf env (env.stepsOf wid) e.userId ≠ 0)
    (hpct : ((approvedCountOf env e.id : ℚ) /
        (totalApproversOf env (env.stepsOf wid) e.userId : ℚ)) * 100 ≥ requiredOrDefault w) :
    processApproval env e aid Action.APPROVED =
      some ⟨true, none, [], true,
        toString (((approvedCountOf env e.id : ℚ) /
          (totalApproversOf env (env.stepsOf wid) e.userId : ℚ)) * 100) ++
          "% approval threshold met"⟩ := by
  have hred : processApproval env e aid Action.APPROVED =
      processPercentage env e w (env.stepsOf wid) aid := by
    simp only [processApproval, hwid, hwf]
    rw [if_neg (fun hl => hne (List.length_eq_zero.mp hl)), if_neg (by simp [hauth]), hrt,
      if_neg (by decide), if_pos rfl]
  rw [hred]
  simp only [processPercentage]
  rw [if_neg htot, requiredPercentageOf_eq_default w hreq, if_pos hpct]

/-- Claim C6 witness: one approval of the two-approver percentage workflow at
the default-satisfying 50 percent threshold terminally approves at once. -/
theorem percentage_threshold_terminal_approve_witness :
    processApproval envPct ePct "u1" Action.APPROVED =
      some ⟨true, none, [], true,
        toString (((approvedCountOf envPct ePct.id : ℚ) /
          (totalApproversOf envPct (envPct.stepsOf "w") ePct.userId : ℚ)) * 100) ++
          "% approval threshold met"⟩ :=
  percentage_threshold_terminal_approve envPct ePct "u1" "w" wPct (by decide) (by decide) rfl
    (by decide) (by decide)
    (by intro r hr; rw [show wPct.ruleConfig.requiredPercentage = some 50 from rfl] at hr;
        cases hr; constructor <;> norm_num)
    (by decide)
    (by rw [show approvedCountOf envPct ePct.id = 1 from rfl,
          show totalApproversOf envPct (envPct.stepsOf "w") ePct.userId = 2 from rfl,
          show requiredOrDefault wPct = 50 from rfl]
        norm_num)

/-- Claim C7 counterexample: no input makes the exhausted-steps branch of
processPercentage (entry threshold test failed, next step beyond the step
count) produce a terminal approval; its re-test of the percentage is always
false there. -/
theorem percentage_exhausted_approval_counterexample :
    ¬ ∃ (env : Env) (e : Expense) (w : ApprovalWorkflow) (steps : List WorkflowStep)
        (aid : String) (d : ApprovalDecision),
      processPercentage env e w steps aid = some d ∧
      totalApproversOf env steps e.userId ≠ 0 ∧
      ((approvedCountOf env e.id : ℚ) / (totalApproversOf env steps e.userId : ℚ)) * 100 <
        requiredPercentageOf w ∧
      (steps.length : Int) < currentOr1 e.currentStepNumber + 1 ∧
      d.completed = true ∧ d.approved = true := by
  rintro ⟨env, e, w, steps, aid, d, hd, htot, hlt, hex, hcomp, happ⟩
  simp only [processPercentage] at hd
  rw [if_neg htot, if_neg (not_le.mpr hlt), if_pos (by omega : currentOr1 e.currentStepNumber +
    1 > (steps.length : Int))] at hd
  cases hd
  exact absurd (of_decide_eq_true happ) (not_le.mpr hlt)

/-- Claim C7 (amended): the exhausted-steps branch of processPercentage does
re-test percentage against requiredPercentage for the approved field, but the
branch is only reachable when that same test has already failed, so step
exhaustion under a missed threshold always yields a terminal rejection. -/
theorem percentage_exhausted_rejects (env : Env) (e : Expense) (w : ApprovalWorkflow)
    (steps : List WorkflowStep) (aid : String)
    (htot : totalApproversOf env steps e.userId ≠ 0)
    (hlt : ((approvedCountOf env e.id : ℚ) / (totalApproversOf env steps e.userId : ℚ)) * 100 <
      requiredPercentageOf w)
    (hex : (steps.length : Int) < currentOr1 e.currentStepNumber + 1) :
    processPercentage env e w steps aid =
      some ⟨false, none, [], true,
        "Final percentage: " ++ toString (((approvedCountOf env e.id : ℚ) /
          (totalApproversOf env steps e.userId : ℚ)) * 100) ++ "%"⟩ := by
  simp only [processPercentage]
  rw [if_neg htot, if_neg (not_le.mpr hlt), if_pos (by omega : currentOr1 e.currentStepNumber +
    1 > (steps.length : Int)), decide_eq_false (not_le.mpr hlt)]

/-- Claim C7 witness: one approval out of three resolved approvers at the last
step of the three-step percentage workflow misses the 50 percent threshold and
terminally rejects at exhaustion. -/
theorem percentage_exhausted_rejects_witness :
    processPercentage envPct3 ePct3 wPct steps3 "u3" =
      some ⟨false, none, [], true,
        "Final percentage: " ++ toString (((approvedCountOf envPct3 ePct3.id : ℚ) /
          (totalApproversOf envPct3 steps3 ePct3.userId : ℚ)) * 100) ++ "%"⟩ :=
  percentage_exhausted_rejects envPct3 ePct3 wPct steps3 "u3" (by decide)
    (by rw [show approvedCountOf envPct3 ePct3.id = 1 from rfl,
          show totalApproversOf envPct3 steps3 ePct3.userId = 3 from rfl,
          show requiredPercentageOf wPct = 50 from rfl]
        norm_num)
    (by decide)

/-- Claim C8: SPECIFIC_APPROVER with an authorized APPROVED action: an action
by the configured specific approver terminally approves at once regardless of
step position; any other action advances to the next step as in SEQUENTIAL,
except that step exhaustion yields a terminal rejection. -/
theorem specific_approver_override_or_advance (env : Env) (e : Expense) (aid wid : String)
    (w : ApprovalWorkflow)
    (hwid : truthyStr e.workflowId = some wid) (hwf : getWorkflow env wid = some w)
    (hrt : w.ruleType = "SPECIFIC_APPROVER") (hne : env.stepsOf wid ≠ [])
    (hauth : isApproverAuthorized env e aid = true)
    (hk : 1 ≤ currentOr1 e.currentStepNumber) :
    (some aid = w.ruleConfig.specificApproverId →
      processApproval env e aid Action.APPROVED =
        some ⟨true, none, [], true, "Approved by specific approver"⟩) ∧
    (some aid ≠ w.ruleConfig.specificApproverId →
      ((env.stepsOf wid).length : Int) < currentOr1 e.currentStepNumber + 1 →
      processApproval env e aid Action.APPROVED =
        some ⟨false, none, [], true, "Specific approver did not approve"⟩) ∧
    (some aid ≠ w.ruleConfig.specificApproverId →
      currentOr1 e.currentStepNumber + 1 ≤ ((env.stepsOf wid).length : Int) →
      ∃ st, jsIndex (env.stepsOf wid) (currentOr1 e.currentStepNumber) = some st ∧
        processApproval env e aid Action.APPROVED =
          some ⟨false, some (currentOr1 e.currentStepNumber + 1),
            getApproversForStep env st e.userId, false,
            "Waiting for specific approver (User ID: " ++
              (w.ruleConfig.specificApproverId).getD "undefined" ++ ")"⟩) := by
  have hred : processApproval env e aid Action.APPROVED =
      processSpecificApprover env e w (env.stepsOf wid) aid := by
    simp only [processApproval, hwid, hwf]
    rw [if_neg (fun hl => hne (List.length_eq_zero.mp hl)), if_neg (by simp [hauth]), hrt,
      if_neg (by decide), if_neg (by decide), if_pos rfl]
  refine ⟨fun hs => ?_, fun hs hgt => ?_, fun hs hle => ?_⟩
  · rw [hred]; simp only [processSpecificApprover]; rw [if_pos hs]
  · rw [hred]; simp only [processSpecificApprover]
    rw [if_neg hs, if_pos (by omega : currentOr1 e.currentStepNumber + 1 >
      ((env.stepsOf wid).length : Int))]
  · have h0 : (0 : Int) ≤ currentOr1 e.currentStepNumber := by omega
    have hlt : (currentOr1 e.currentStepNumber).toNat < (env.stepsOf wid).length := by omega
    refine ⟨(env.stepsOf wid).get ⟨(currentOr1 e.currentStepNumber).toNat, hlt⟩,
      jsIndex_get _ _ h0 hlt, ?_⟩
    rw [hred]
    simp only [processSpecificApprover]
    rw [if_neg hs, if_neg (by omega), add_sub_cancel_right, jsIndex_get _ _ h0 hlt]

/-- Claim C8 witness: the configured specific approver acting at step 1 of a
one-step workflow terminally approves at once. -/
theorem specific_approver_override_or_advance_witness :
    processApproval envSpec eSpec "boss" Action.APPROVED =
      some ⟨true, none, [], true, "Approved by specific approver"⟩ :=
  (specific_approver_override_or_advance envSpec eSpec "boss" "w" wSpec (by decide) (by decide)
    rfl (by decide) (by decide) (by decide)).1 (by decide)

/-- Claim C9: HYBRID with an authorized APPROVED action: with a configured
(truthy) specificApproverId, an action by that approver terminally approves at
once; while the specific approver has no APPROVED history entry, any other
action advances sequentially or terminally rejects at step exhaustion; once
the gate is absent or already satisfied, evaluation falls through to
percentage evaluation when usePercentage is set and to sequential evaluation
otherwise. -/
theorem hybrid_specific_gate (env : Env) (e : Expense) (aid wid : String)
    (w : ApprovalWorkflow)
    (hwid : truthyStr e.workflowId = some wid) (hwf : getWorkflow env wid = some w)
    (hrt : w.ruleType = "HYBRID") (hne : env.stepsOf wid ≠ [])
    (hauth : isApproverAuthorized env e aid = true)
    (hk : 1 ≤ currentOr1 e.currentStepNumber) :
    (∀ sid, truthyStr w.ruleConfig.specificApproverId = some sid → aid = sid →
      processApproval env e aid Action.APPROVED =
        some ⟨true, none, [], true, "Approved by specific approver (hybrid rule)"⟩) ∧
    (∀ sid, truthyStr w.ruleConfig.specificApproverId = some sid → aid ≠ sid →
      historyHasApprovedBy env e.id sid = false →
      (((env.stepsOf wid).length : Int) < currentOr1 e.currentStepNumber + 1 →
        processApproval env e aid Action.APPROVED =
          some ⟨false, none, [], true,
            "Workflow complete but specific approver has not approved - rejected"⟩) ∧
      (currentOr1 e.currentStepNumber + 1 ≤ ((env.stepsOf wid).length : Int) →
        ∃ st, jsIndex (env.stepsOf wid) (currentOr1 e.currentStepNumber) = some st ∧
          processApproval env e aid Action.APPROVED =
            some ⟨false, some (currentOr1 e.currentStepNumber + 1),
              getApproversForStep env st e.userId, false,
              "Waiting for specific approver (User ID: " ++ sid ++ ") in hybrid workflow"⟩)) ∧
    (∀ sid, truthyStr w.ruleConfig.specificApproverId = some sid → aid ≠ sid →
      historyHasApprovedBy env e.id sid = true →
      processApproval env e aid Action.APPROVED =
        (if w.ruleConfig.usePercentage then processPercentage env e w (env.stepsOf wid) aid
         else processSequential env e (env.stepsOf wid))) ∧
    (truthyStr w.ruleConfig.specificApproverId = none →
      processApproval env e aid Action.APPROVED =
        (if w.ruleConfig.usePercentage then processPercentage env e w (env.stepsOf wid) aid
         else processSequential env e (env.stepsOf wid))) := by
  have hred : processApproval env e aid Action.APPROVED =
      processHybrid env e w (env.stepsOf wid) aid := by
    simp only [processApproval, hwid, hwf]
    rw [if_neg (fun hl => hne (List.length_eq_zero.mp hl)), if_neg (by simp [hauth]), hrt,
      if_neg (by decide), if_neg (by decide), if_neg (by decide), if_pos rfl]
  refine ⟨fun sid hs heq => ?_, fun sid hs hne2 hhist => ⟨fun hgt => ?_, fun hle => ?_⟩,
    fun sid hs hne2 hhist => ?_, fun hs => ?_⟩
  · rw [hred]; simp only [processHybrid, hs]; rw [if_pos heq]
  · rw [hred]; simp only [processHybrid, hs]
    rw [if_neg hne2, hhist, if_pos (by decide : (!false) = true),
      if_pos (by omega : currentOr1 e.currentStepNumber + 1 > ((env.stepsOf wid).length : Int))]
  · have h0 : (0 : Int) ≤ currentOr1 e.currentStepNumber := by omega
    have hlt : (currentOr1 e.currentStepNumber).toNat < (env.stepsOf wid).length := by omega
    refine ⟨(env.stepsOf wid).get ⟨(currentOr1 e.currentStepNumber).toNat, hlt⟩,
      jsIndex_get _ _ h0 hlt, ?_⟩
    rw [hred]
    simp only [processHybrid, hs]
    rw [if_neg hne2, hhist, if_pos (by decide : (!false) = true), if_neg (by omega),
      add_sub_cancel_right, jsIndex_get _ _ h0 hlt]
  · rw [hred]; simp only [processHybrid, hs]
    rw [if_neg hne2, hhist, if_neg (by decide : ¬ ((!true) = true))]
  · rw [hred]; simp only [processHybrid, hs]

/-- Claim C9 witness: with the specific approver not yet in history, another
authorized approver at step 1 of the two-step hybrid workflow advances the
claim to step 2. -/
theorem hybrid_specific_gate_witness :
    ∃ st, jsIndex (envHyb.stepsOf "w") (currentOr1 eHyb.currentStepNumber) = some st ∧
      processApproval envHyb eHyb "u1" Action.APPROVED =
        some ⟨false, some (currentOr1 eHyb.currentStepNumber + 1),
          getApproversForStep envHyb st eHyb.userId, false,
          "Waiting for specific approver (User ID: " ++ "boss" ++ ") in hybrid workflow"⟩ :=
  ((hybrid_specific_gate envHyb eHyb "u1" "w" wHyb (by decide) (by decide) rfl (by decide)
    (by decide) (by decide)).2.1 "boss" (by decide) (by decide) (by decide)).2 (by decide)

/-- Claim C10: a SPECIFIC_APPROVER workflow whose rule bag names no specific
approver can never terminally approve through an authorized APPROVED action:
every decision it returns is unapproved, and is either an advance to the next
step or, at step exhaustion, a terminal rejection. -/
theorem specific_without_config_never_approves (env : Env) (e : Expense) (aid wid : String)
    (w : ApprovalWorkflow)
    (hwid : truthyStr e.workflowId = some wid) (hwf : getWorkflow env wid = some w)
    (hrt : w.ruleType = "SPECIFIC_APPROVER")
    (hsid : w.ruleConfig.specificApproverId = none)
    (hne : env.stepsOf wid ≠ []) (hauth : isApproverAuthorized env e aid = true) :
    ∀ d, processApproval env e aid Action.APPROVED = some d →
      d.approved = false ∧
      (d.completed = true →
        d = ⟨false, none, [], true, "Specific approver did not approve"⟩) ∧
      (d.completed = false →
        d.nextStepNumber = some (currentOr1 e.currentStepNumber + 1)) := by
  intro d hd
  have hred : processApproval env e aid Action.APPROVED =
      processSpecificApprover env e w (env.stepsOf wid) aid := by
    simp only [processApproval, hwid, hwf]
    rw [if_neg (fun hl => hne (List.length_eq_zero.mp hl)), if_neg (by simp [hauth]), hrt,
      if_neg (by decide), if_neg (by decide), if_pos rfl]
  rw [hred] at hd
  simp only [processSpecificApprover, hsid] at hd
  rw [if_neg (by simp : ¬ (some aid = (none : Option String)))] at hd
  by_cases hex : currentOr1 e.currentStepNumber + 1 > ((env.stepsOf wid).length : Int)
  · rw [if_pos hex] at hd
    cases hd
    exact ⟨rfl, fun _ => rfl, fun hc => Bool.noConfusion hc⟩
  · rw [if_neg hex] at hd
    cases hjs : jsIndex (env.stepsOf wid) (currentOr1 e.currentStepNumber + 1 - 1) with
    | none => simp only [hjs] at hd; exact Option.noConfusion hd
    | some st =>
      simp only [hjs] at hd
      cases hd
      exact ⟨rfl, fun hc => Bool.noConfusion hc, fun _ => rfl⟩

/-- Claim C10 witness: an authorized approval at the only step of the
misconfigured specific-approver workflow terminally rejects unapproved. -/
theorem specific_without_config_never_approves_witness :
    processApproval envSpec0 eSpec0 "u1" Action.APPROVED =
      some ⟨false, none, [], true, "Specific approver did not approve"⟩ ∧
    ((⟨false, none, [], true, "Specific approver did not approve"⟩ : ApprovalDecision).approved =
      false) :=
  ⟨by decide,
    (specific_without_config_never_approves envSpec0 eSpec0 "u1" "w" wSpec0 (by decide)
      (by decide) rfl rfl (by decide) (by decide) _ (by decide)).1⟩

end Engine
